import Mathlib

set_option maxHeartbeats 1000000
set_option maxRecDepth 10000

/-!
Shallow embedding of the watch client of this repository.

The repository has two variants of the watch operation:

* `WatchIterator.watch` (src/src/watch_iterator.ts): reads the whole
  response body as text, splits it on LF, filters out lines whose JS
  `trim()` is empty, applies `JSON.parse` to each remaining line and
  yields `{ type: data.type, object: data.object }`, silently skipping
  lines on which `JSON.parse` (or the subsequent property access) throws.
  A non-200 status throws `WatchError(statusText, statusCode)` where
  `statusText = STATUS_CODES[code] || "Unknown Error"`.

* `WatchApi.watch` (src/unnamed/part_000): streams the body through the
  readline interface of node (lines are delimited by LF, CR or CRLF, and
  a final unterminated fragment is emitted as a line when the stream
  ends), applies `JSON.parse` to each line and yields the same record,
  skipping lines that throw.  A non-200 status throws
  `ApiException(status, statusText, body, {})` where
  `statusText = response.statusText || STATUS_CODES[status] || "Internal Server Error"`.

Machine strings are Lean `String`; the generator is modelled as the
list of yielded events, and the thrown terminal failure as the error
side of an `Except`.
-/

/-- JSON values as produced by the ECMAScript builtin `JSON.parse`.
Numbers keep their source lexeme uninterpreted: the watch code treats
every parsed payload opaquely, so no claim depends on numeric value
identity.  Object members are kept in parse order; duplicate keys are
resolved by `lookupLast` (in JS the later member overwrites). -/
inductive Json where
  | null : Json
  | bool : Bool → Json
  | num : String → Json
  | str : String → Json
  | arr : List Json → Json
  | obj : List (String × Json) → Json

/-- Character constants written via code points so that brace and quote
characters never appear literally. -/
def lbrace : Char := Char.ofNat 123

/-- Closing brace character. -/
def rbrace : Char := Char.ofNat 125

/-- Double quote character. -/
def qmark : Char := Char.ofNat 34

/-- Whitespace accepted between JSON tokens by `JSON.parse`
(space, tab, line feed, carriage return). -/
def isJsonWs (c : Char) : Bool :=
  c = ' ' || c = '\t' || c = '\n' || c = '\r'

/-- Characters that the ECMAScript `String.prototype.trim` removes but
`JSON.parse` does not treat as token whitespace (vertical tab, form
feed, NBSP, the Unicode space separators, LS, PS, ZWNBSP). -/
def jsOnlyWsChars : List Char :=
  [Char.ofNat 11, Char.ofNat 12, Char.ofNat 160, Char.ofNat 5760,
   Char.ofNat 8192, Char.ofNat 8193, Char.ofNat 8194, Char.ofNat 8195,
   Char.ofNat 8196, Char.ofNat 8197, Char.ofNat 8198, Char.ofNat 8199,
   Char.ofNat 8200, Char.ofNat 8201, Char.ofNat 8202, Char.ofNat 8232,
   Char.ofNat 8233, Char.ofNat 8239, Char.ofNat 8287, Char.ofNat 12288,
   Char.ofNat 65279]

/-- Whitespace-only characters per JS trim but not JSON. -/
def isJsOnlyWs (c : Char) : Bool := jsOnlyWsChars.contains c

/-- Whitespace removed by the ECMAScript `String.prototype.trim`:
the JSON token whitespace plus the JS-only whitespace characters. -/
def isJsWhitespace (c : Char) : Bool := isJsonWs c || isJsOnlyWs c

/-- Model of `String.prototype.trim`: strip JS whitespace from both
ends. -/
def jsTrim (s : String) : String :=
  String.mk (((s.data.dropWhile isJsWhitespace).reverse.dropWhile isJsWhitespace).reverse)

/-- Skip JSON token whitespace. -/
def skipWs : List Char → List Char
  | [] => []
  | c :: cs => if isJsonWs c then skipWs cs else c :: cs

/-- Match an expected keyword suffix character by character. -/
def stripChars : List Char → List Char → Option (List Char)
  | [], cs => some cs
  | _ :: _, [] => none
  | k :: ks, c :: cs => if c = k then stripChars ks cs else none

/-- Hexadecimal digit value. -/
def hexVal (c : Char) : Option Nat :=
  if '0' ≤ c ∧ c ≤ '9' then some (c.toNat - 48)
  else if 'a' ≤ c ∧ c ≤ 'f' then some (c.toNat - 87)
  else if 'A' ≤ c ∧ c ≤ 'F' then some (c.toNat - 55)
  else none

/-- Body of a JSON string after the opening quote: returns the decoded
characters and the input following the closing quote.  Escapes and the
rejection of unescaped control characters follow the JSON grammar
enforced by `JSON.parse`. -/
def parseStringChars : List Char → Option (List Char × List Char)
  | [] => none
  | c :: rest =>
    if c = qmark then some ([], rest)
    else if c = '\\' then
      match rest with
      | [] => none
      | e :: rest2 =>
        if e = qmark || e = '\\' || e = '/' then
          match parseStringChars rest2 with
          | some (s, r) => some (e :: s, r)
          | none => none
        else if e = 'b' then
          match parseStringChars rest2 with
          | some (s, r) => some (Char.ofNat 8 :: s, r)
          | none => none
        else if e = 'f' then
          match parseStringChars rest2 with
          | some (s, r) => some (Char.ofNat 12 :: s, r)
          | none => none
        else if e = 'n' then
          match parseStringChars rest2 with
          | some (s, r) => some ('\n' :: s, r)
          | none => none
        else if e = 'r' then
          match parseStringChars rest2 with
          | some (s, r) => some ('\r' :: s, r)
          | none => none
        else if e = 't' then
          match parseStringChars rest2 with
          | some (s, r) => some ('\t' :: s, r)
          | none => none
        else if e = 'u' then
          match rest2 with
          | h1 :: h2 :: h3 :: h4 :: rest3 =>
            match hexVal h1, hexVal h2, hexVal h3, hexVal h4 with
            | some a, some b, some c2, some d =>
              match parseStringChars rest3 with
              | some (s, r) => some (Char.ofNat (4096 * a + 256 * b + 16 * c2 + d) :: s, r)
              | none => none
            | _, _, _, _ => none
          | _ => none
        else none
    else if c.toNat < 32 then none
    else
      match parseStringChars rest with
      | some (s, r) => some (c :: s, r)
      | none => none

/-- Longest prefix of decimal digits. -/
def takeDigits : List Char → List Char × List Char
  | [] => ([], [])
  | c :: rest =>
    if c.isDigit then
      let p := takeDigits rest
      (c :: p.1, p.2)
    else ([], c :: rest)

/-- Integer part of a JSON number: a single 0, or a nonzero digit
followed by digits. -/
def parseIntPart : List Char → Option (List Char × List Char)
  | [] => none
  | c :: rest =>
    if c = '0' then some ([c], rest)
    else if c.isDigit then
      let p := takeDigits rest
      some (c :: p.1, p.2)
    else none

/-- Optional fraction part of a JSON number. -/
def parseFracPart (cs : List Char) : Option (List Char × List Char) :=
  match cs with
  | c :: rest =>
    if c = '.' then
      match takeDigits rest with
      | ([], _) => none
      | (ds, r) => some (c :: ds, r)
    else some ([], cs)
  | [] => some ([], [])

/-- Optional exponent part of a JSON number. -/
def parseExpPart (cs : List Char) : Option (List Char × List Char) :=
  match cs with
  | c :: rest =>
    if c = 'e' || c = 'E' then
      let sr : List Char × List Char :=
        match rest with
        | s :: r2 => if s = '+' || s = '-' then ([s], r2) else ([], rest)
        | [] => ([], [])
      match takeDigits sr.2 with
      | ([], _) => none
      | (ds, r) => some ((c :: sr.1) ++ ds, r)
    else some ([], cs)
  | [] => some ([], [])

/-- JSON number per the grammar accepted by `JSON.parse`; the lexeme is
kept as the uninterpreted payload. -/
def parseNumber (cs : List Char) : Option (Json × List Char) :=
  let sg : List Char × List Char :=
    match cs with
    | c :: r => if c = '-' then ([c], r) else ([], cs)
    | [] => ([], [])
  match parseIntPart sg.2 with
  | none => none
  | some (ip, cs2) =>
    match parseFracPart cs2 with
    | none => none
    | some (fp, cs3) =>
      match parseExpPart cs3 with
      | none => none
      | some (ep, cs4) => some (Json.num (String.mk (sg.1 ++ ip ++ fp ++ ep)), cs4)

mutual

/-- Recursive descent JSON value, with explicit fuel; every recursive
call strictly decreases the fuel and follows at least one consumed
input character, so a fuel of a small multiple of the input length is
always sufficient. -/
def parseValue (fuel : Nat) (cs : List Char) : Option (Json × List Char) :=
  match fuel with
  | 0 => none
  | Nat.succ f =>
    match skipWs cs with
    | [] => none
    | c :: rest => parseHead f c rest

/-- Dispatch on the first non-whitespace character of a JSON value. -/
def parseHead (fuel : Nat) (c : Char) (rest : List Char) : Option (Json × List Char) :=
  match fuel with
  | 0 => none
  | Nat.succ f =>
    if c = lbrace then parseMembersStart f rest
    else if c = '[' then parseElemsStart f rest
    else if c = qmark then
      match parseStringChars rest with
      | some (s, r) => some (Json.str (String.mk s), r)
      | none => none
    else if c = 'n' then
      match stripChars ['u', 'l', 'l'] rest with
      | some r => some (Json.null, r)
      | none => none
    else if c = 't' then
      match stripChars ['r', 'u', 'e'] rest with
      | some r => some (Json.bool true, r)
      | none => none
    else if c = 'f' then
      match stripChars ['a', 'l', 's', 'e'] rest with
      | some r => some (Json.bool false, r)
      | none => none
    else if c = '-' || c.isDigit then parseNumber (c :: rest)
    else none

/-- Object members after the opening brace. -/
def parseMembersStart (fuel : Nat) (cs : List Char) : Option (Json × List Char) :=
  match fuel with
  | 0 => none
  | Nat.succ f =>
    match skipWs cs with
    | [] => none
    | c :: rest =>
      if c = rbrace then some (Json.obj [], rest)
      else parseMembersLoop f [] (c :: rest)

/-- One object member (string key, colon, value) and then either a
comma and further members or the closing brace. -/
def parseMembersLoop (fuel : Nat) (acc : List (String × Json)) (cs : List Char) :
    Option (Json × List Char) :=
  match fuel with
  | 0 => none
  | Nat.succ f =>
    match skipWs cs with
    | [] => none
    | c :: rest =>
      if c = qmark then
        match parseStringChars rest with
        | none => none
        | some (key, r1) =>
          match skipWs r1 with
          | [] => none
          | c2 :: r2 =>
            if c2 = ':' then
              match parseValue f r2 with
              | none => none
              | some (v, r3) =>
                match skipWs r3 with
                | [] => none
                | c3 :: r4 =>
                  if c3 = ',' then parseMembersLoop f (acc ++ [(String.mk key, v)]) r4
                  else if c3 = rbrace then some (Json.obj (acc ++ [(String.mk key, v)]), r4)
                  else none
            else none
      else none

/-- Array elements after the opening bracket. -/
def parseElemsStart (fuel : Nat) (cs : List Char) : Option (Json × List Char) :=
  match fuel with
  | 0 => none
  | Nat.succ f =>
    match skipWs cs with
    | [] => none
    | c :: rest =>
      if c = ']' then some (Json.arr [], rest)
      else parseElemsLoop f [] (c :: rest)

/-- One array element and then either a comma and further elements or
the closing bracket. -/
def parseElemsLoop (fuel : Nat) (acc : List Json) (cs : List Char) :
    Option (Json × List Char) :=
  match fuel with
  | 0 => none
  | Nat.succ f =>
    match parseValue f cs with
    | none => none
    | some (v, r1) =>
      match skipWs r1 with
      | [] => none
      | c :: r2 =>
        if c = ',' then parseElemsLoop f (acc ++ [v]) r2
        else if c = ']' then some (Json.arr (acc ++ [v]), r2)
        else none

end

/-- Model of the ECMAScript `JSON.parse`: parse one value, then require
only whitespace to follow; `none` models the thrown SyntaxError. -/
def JSONparse (s : String) : Option Json :=
  match parseValue (8 * s.length + 16) s.data with
  | some (v, rest) => if skipWs rest = [] then some v else none
  | none => none

/-- Last binding of a key among parsed object members (in JS a later
duplicate member overwrites the earlier one). -/
def lookupLast : List (String × Json) → String → Option Json
  | [], _ => none
  | p :: rest, key =>
    match lookupLast rest key with
    | some v => some v
    | none => if p.1 = key then some p.2 else none

/-- Model of the JS property access `data.key` on a parsed JSON value:
a member lookup on objects, `undefined` (here `none`) on every other
non-null value.  The null case is excluded by the caller because in JS
the access throws there. -/
def Json.getField : Json → String → Option Json
  | Json.obj fields, key => lookupLast fields key
  | _, _ => none

/-- Yielded watch event, as constructed by both variants:
`yield { type: data.type, object: data.object }`.  Either projection is
`none` when the corresponding JS property access gives `undefined`. -/
structure WEvent where
  type : Option Json
  object : Option Json

/-- Per-line decoding shared verbatim by both variants
(src/src/watch_iterator.ts lines 284-294 and src/unnamed/part_000 lines
198-208): `JSON.parse` the line; on a thrown SyntaxError skip the line;
on a parsed `null` the property access `data.type` throws a TypeError
which the same catch swallows, so the line is also skipped; any other
parsed value is yielded as one event. -/
def decodeLine (line : String) : Option WEvent :=
  match JSONparse line with
  | none => none
  | some Json.null => none
  | some v => some { type := v.getField "type", object := v.getField "object" }

/-- Split of a character list on LF keeping empty fields, the model of
the JS `body.split('\n')` used by `WatchIterator.watch`. -/
def splitNlAux : List Char → List Char → List String
  | [], acc => [String.mk acc]
  | c :: rest, acc =>
    if c = '\n' then String.mk acc :: splitNlAux rest [] else splitNlAux rest (acc ++ [c])

/-- Lines of the body as seen by `WatchIterator.watch`. -/
def iterLines (s : String) : List String := splitNlAux s.data []

/-- Line splitting of the node readline interface used by
`WatchApi.watch`: a line break is LF, CRLF or a lone CR, and the final
unterminated fragment is emitted as a line when the stream closes.  The
Boolean records that the previous character was a CR whose line was
already emitted, so that a following LF is consumed silently. -/
def splitLinesAux : Bool → List Char → List Char → List String
  | _, [], acc => if acc = [] then [] else [String.mk acc]
  | sawCR, c :: rest, acc =>
    if sawCR && c = '\n' then splitLinesAux false rest acc
    else if c = '\n' then String.mk acc :: splitLinesAux false rest []
    else if c = '\r' then String.mk acc :: splitLinesAux true rest []
    else splitLinesAux false rest (acc ++ [c])

/-- Lines of the body as seen by `WatchApi.watch`. -/
def apiLines (s : String) : List String := splitLinesAux false s.data []

/-- Event list produced by the `WatchIterator` pipeline from a list of
lines: drop lines whose JS trim is empty, then decode each remaining
line (src/src/watch_iterator.ts lines 282-294). -/
def iterEventsOfLines (ls : List String) : List WEvent :=
  (ls.filter (fun l => !(jsTrim l == ""))).filterMap decodeLine

/-- Event list produced by the `WatchApi` pipeline from a list of
lines: decode every line (src/unnamed/part_000 lines 198-208). -/
def apiEventsOfLines (ls : List String) : List WEvent :=
  ls.filterMap decodeLine

/-- All events yielded by `WatchIterator.watch` for a 200 response. -/
def watchIteratorEvents (body : String) : List WEvent :=
  iterEventsOfLines (iterLines body)

/-- All events yielded by `WatchApi.watch` for a 200 response. -/
def watchApiEvents (body : String) : List WEvent :=
  apiEventsOfLines (apiLines body)

/-- Model of the status text table `STATUS_CODES` of the node `http`
module, imported by both source files. -/
def STATUS_CODES (code : Nat) : Option String :=
  match code with
  | 100 => some "Continue"
  | 101 => some "Switching Protocols"
  | 102 => some "Processing"
  | 103 => some "Early Hints"
  | 200 => some "OK"
  | 201 => some "Created"
  | 202 => some "Accepted"
  | 203 => some "Non-Authoritative Information"
  | 204 => some "No Content"
  | 205 => some "Reset Content"
  | 206 => some "Partial Content"
  | 207 => some "Multi-Status"
  | 208 => some "Already Reported"
  | 226 => some "IM Used"
  | 300 => some "Multiple Choices"
  | 301 => some "Moved Permanently"
  | 302 => some "Found"
  | 303 => some "See Other"
  | 304 => some "Not Modified"
  | 305 => some "Use Proxy"
  | 307 => some "Temporary Redirect"
  | 308 => some "Permanent Redirect"
  | 400 => some "Bad Request"
  | 401 => some "Unauthorized"
  | 402 => some "Payment Required"
  | 403 => some "Forbidden"
  | 404 => some "Not Found"
  | 405 => some "Method Not Allowed"
  | 406 => some "Not Acceptable"
  | 407 => some "Proxy Authentication Required"
  | 408 => some "Request Timeout"
  | 409 => some "Conflict"
  | 410 => some "Gone"
  | 411 => some "Length Required"
  | 412 => some "Precondition Failed"
  | 413 => some "Payload Too Large"
  | 414 => some "URI Too Long"
  | 415 => some "Unsupported Media Type"
  | 416 => some "Range Not Satisfiable"
  | 417 => some "Expectation Failed"
  | 418 => some "I'm a Teapot"
  | 421 => some "Misdirected Request"
  | 422 => some "Unprocessable Entity"
  | 423 => some "Locked"
  | 424 => some "Failed Dependency"
  | 425 => some "Too Early"
  | 426 => some "Upgrade Required"
  | 428 => some "Precondition Required"
  | 429 => some "Too Many Requests"
  | 431 => some "Request Header Fields Too Large"
  | 451 => some "Unavailable For Legal Reasons"
  | 500 => some "Internal Server Error"
  | 501 => some "Not Implemented"
  | 502 => some "Bad Gateway"
  | 503 => some "Service Unavailable"
  | 504 => some "Gateway Timeout"
  | 505 => some "HTTP Version Not Supported"
  | 506 => some "Variant Also Negotiates"
  | 507 => some "Insufficient Storage"
  | 508 => some "Loop Detected"
  | 509 => some "Bandwidth Limit Exceeded"
  | 510 => some "Not Extended"
  | 511 => some "Network Authentication Required"
  | _ => none

/-- Error thrown by `WatchIterator.watch`
(src/src/watch_iterator.ts lines 89-106): it carries only a message and
an optional status code, never the response body. -/
structure WatchError where
  message : String
  statusCode : Option Nat

/-- Error thrown by `WatchApi.watch` for a non-200 status
(src/unnamed/part_000 line 190): `ApiException(status, statusText,
body, {})` carries the numeric code, the status text and the raw
response body. -/
structure ApiException where
  code : Nat
  message : String
  body : String

/-- Status text chosen by `WatchIterator.watch` for a non-200 status:
`STATUS_CODES[httpStatusCode] || 'Unknown Error'`. -/
def iterStatusText (code : Nat) : String :=
  (STATUS_CODES code).getD "Unknown Error"

/-- Status text chosen by `WatchApi.watch` for a non-200 status:
`response.statusText || STATUS_CODES[response.status] || 'Internal
Server Error'`; the empty string is falsy in JS. -/
def apiStatusText (statusText : String) (code : Nat) : String :=
  if statusText = "" then (STATUS_CODES code).getD "Internal Server Error" else statusText

/-- Observable outcome of `WatchIterator.watch` once the transport has
answered with the given status and body: the thrown `WatchError` for a
non-200 status, otherwise the yielded event list
(src/src/watch_iterator.ts lines 270-294). -/
def watchIterator (status : Nat) (body : String) : Except WatchError (List WEvent) :=
  if status ≠ 200 then
    Except.error { message := iterStatusText status, statusCode := some status }
  else Except.ok (watchIteratorEvents body)

/-- Observable outcome of `WatchApi.watch` once the transport has
answered with the given status, status text and body: the thrown
`ApiException` for a non-200 status, otherwise the yielded event list
(src/unnamed/part_000 lines 186-208). -/
def watchApi (status : Nat) (statusText : String) (body : String) :
    Except ApiException (List WEvent) :=
  if status ≠ 200 then
    Except.error { code := status, message := apiStatusText statusText status, body := body }
  else Except.ok (watchApiEvents body)

/-- Query value of `WatchApi.watch`: one entry of the caller map
`Record<string, string | number | boolean | undefined>` that is not
`undefined`.  JS numbers are restricted to integers here; the watch
code only ever converts the value with `toString()`. -/
inductive JsPrim where
  | str : String → JsPrim
  | num : Int → JsPrim
  | bool : Bool → JsPrim

/-- Model of the JS `val.toString()` on a query value. -/
def jsToString : JsPrim → String
  | JsPrim.str s => s
  | JsPrim.num n => toString n
  | JsPrim.bool b => if b then "true" else "false"

/-- Modelled from the spec: `RequestContext.setQueryParam` of the
generated client (gen/index.js, not included under src/) and the
`URL.searchParams.set` used by `WatchApi.watch` both store one
occurrence per key, replacing the value when the key is already
present and appending it otherwise; the serialized query string is
URL-encoded outside this model. -/
def setParam : List (String × String) → String → String → List (String × String)
  | [], k, v => [(k, v)]
  | p :: rest, k, v =>
    if p.1 = k then (k, v) :: rest.filter (fun q => !(q.1 == k))
    else p :: setParam rest k v

/-- First value bound to a key in a query. -/
def getParam (q : List (String × String)) (k : String) : Option String :=
  match q.find? (fun p => p.1 == k) with
  | some p => some p.2
  | none => none

/-- Number of occurrences of a key in a query. -/
def countKey (q : List (String × String)) (k : String) : Nat :=
  (q.filter (fun p => p.1 == k)).length

/-- Options record of `WatchIterator.watch`
(src/src/watch_iterator.ts lines 54-84); `none` models an absent or
`undefined` member. -/
structure WatchOptions where
  resourceVersion : Option String
  labelSelector : Option String
  fieldSelector : Option String
  timeoutMs : Option Nat
  allowWatchBookmarks : Option Bool

/-- Destructuring default `allowWatchBookmarks = true` of
`WatchIterator.watch`. -/
def effAllowWatchBookmarks (o : WatchOptions) : Bool :=
  o.allowWatchBookmarks.getD true

/-- Destructuring default `timeoutMs = 30000` of
`WatchIterator.watch`. -/
def effTimeoutMs (o : WatchOptions) : Nat :=
  o.timeoutMs.getD 30000

/-- Initial value of the `requestTimeoutMs` field of `WatchApi`
(src/unnamed/part_000 line 91). -/
def watchApiInitialTimeoutMs : Nat := 30000

/-- Query built by `WatchIterator.watch`
(src/src/watch_iterator.ts lines 232-246): `watch=true` always, each
supplied string option verbatim, and `allowWatchBookmarks=true` only
when the effective Boolean is true; an effective false sets nothing. -/
def buildIteratorQuery (o : WatchOptions) : List (String × String) :=
  let q0 := setParam [] "watch" "true"
  let q1 := match o.resourceVersion with
    | some rv => setParam q0 "resourceVersion" rv
    | none => q0
  let q2 := match o.labelSelector with
    | some ls => setParam q1 "labelSelector" ls
    | none => q1
  let q3 := match o.fieldSelector with
    | some fs => setParam q2 "fieldSelector" fs
    | none => q2
  if effAllowWatchBookmarks o then setParam q3 "allowWatchBookmarks" "true" else q3

/-- Query built by `WatchApi.watch` (src/unnamed/part_000 lines
154-161): `watch=true` first, then every caller entry whose value is
not `undefined`, set to its `toString()` form in iteration order. -/
def buildApiQuery (params : List (String × Option JsPrim)) : List (String × String) :=
  params.foldl
    (fun q p =>
      match p.2 with
      | some v => setParam q p.1 (jsToString v)
      | none => q)
    (setParam [] "watch" "true")

/-- A string whose JS trim is empty consists of JS whitespace only. -/
theorem jsTrim_empty_all_ws (s : String) (h : jsTrim s = "") :
    ∀ c ∈ s.data, isJsWhitespace c = true := by
  have hdata : ((s.data.dropWhile isJsWhitespace).reverse.dropWhile isJsWhitespace).reverse
      = ([] : List Char) := by
    have := congrArg String.data h
    simpa [jsTrim] using this
  have h1 : (s.data.dropWhile isJsWhitespace).reverse.dropWhile isJsWhitespace
      = ([] : List Char) := by
    simpa using congrArg List.reverse hdata
  have h2 : ∀ c ∈ (s.data.dropWhile isJsWhitespace).reverse, isJsWhitespace c = true :=
    List.dropWhile_eq_nil_iff.mp h1
  have h3 : ∀ c ∈ s.data.dropWhile isJsWhitespace, isJsWhitespace c = true := by
    intro c hc
    exact h2 c (List.mem_reverse.mpr hc)
  intro c hc
  rw [← List.takeWhile_append_dropWhile (p := isJsWhitespace) (l := s.data)] at hc
  rcases List.mem_append.mp hc with hc | hc
  · exact List.mem_takeWhile_imp hc
  · exact h3 c hc

/-- Skipping JSON whitespace in a JS-whitespace-only input either
exhausts it or stops at a JS-only whitespace character. -/
theorem skipWs_all_ws (cs : List Char) (h : ∀ c ∈ cs, isJsWhitespace c = true) :
    skipWs cs = [] ∨ ∃ c rest, skipWs cs = c :: rest ∧ isJsOnlyWs c = true := by
  induction cs with
  | nil => exact Or.inl rfl
  | cons c cs ih =>
    by_cases hc : isJsonWs c = true
    · have : skipWs (c :: cs) = skipWs cs := by simp [skipWs, hc]
      rw [this]
      exact ih (fun x hx => h x (List.mem_cons_of_mem _ hx))
    · right
      refine ⟨c, cs, ?_, ?_⟩
      · simp [skipWs, hc]
      · have hw := h c (List.mem_cons_self _ _)
        have hor : isJsonWs c = true ∨ isJsOnlyWs c = true := by
          simpa [isJsWhitespace] using hw
        rcases hor with h1 | h1
        · exact absurd h1 hc
        · exact h1

/-- A character that starts no JSON value makes `parseHead` fail. -/
theorem parseHead_none_of_not_start (fuel : Nat) (c : Char) (rest : List Char)
    (h1 : c ≠ lbrace) (h2 : c ≠ '[') (h3 : c ≠ qmark) (h4 : c ≠ 'n') (h5 : c ≠ 't')
    (h6 : c ≠ 'f') (h7 : c ≠ '-') (h8 : c.isDigit = false) :
    parseHead fuel c rest = none := by
  cases fuel with
  | zero => rfl
  | succ f => simp [parseHead, h1, h2, h3, h4, h5, h6, h7, h8]

/-- A JS-only whitespace character starts no JSON value. -/
theorem parseHead_none_of_jsOnlyWs (fuel : Nat) (c : Char) (rest : List Char)
    (h : isJsOnlyWs c = true) : parseHead fuel c rest = none := by
  have hm : c ∈ jsOnlyWsChars := by
    simpa [isJsOnlyWs, List.contains, List.elem_iff] using h
  simp only [jsOnlyWsChars] at hm
  fin_cases hm <;>
    exact parseHead_none_of_not_start _ _ _ (by decide) (by decide) (by decide) (by decide)
      (by decide) (by decide) (by decide) (by decide)

/-- Parsing a JS-whitespace-only input fails. -/
theorem parseValue_all_ws (fuel : Nat) (cs : List Char)
    (h : ∀ c ∈ cs, isJsWhitespace c = true) : parseValue fuel cs = none := by
  cases fuel with
  | zero => rfl
  | succ f =>
    rcases skipWs_all_ws cs h with h0 | ⟨c, rest, heq, hc⟩
    · simp [parseValue, h0]
    · simp only [parseValue, heq]
      exact parseHead_none_of_jsOnlyWs f c rest hc

/-- An empty or whitespace-only line throws in `JSON.parse`. -/
theorem JSONparse_of_blank (s : String) (h : jsTrim s = "") : JSONparse s = none := by
  have hws := jsTrim_empty_all_ws s h
  simp [JSONparse, parseValue_all_ws _ _ hws]

/-- A line that parses successfully is not whitespace-only. -/
theorem jsTrim_ne_of_parse (s : String) (v : Json) (h : JSONparse s = some v) :
    jsTrim s ≠ "" := by
  intro hb
  rw [JSONparse_of_blank s hb] at h
  exact Option.noConfusion h

/-- A line on which `JSON.parse` throws is skipped. -/
theorem decodeLine_of_parse_none (l : String) (h : JSONparse l = none) :
    decodeLine l = none := by
  simp [decodeLine, h]

/-- A blank line is skipped by the decoder. -/
theorem decodeLine_of_blank (l : String) (h : jsTrim l = "") : decodeLine l = none :=
  decodeLine_of_parse_none l (JSONparse_of_blank l h)

/-- A line parsed to `null` is skipped: the property access
`data.type` throws a TypeError absorbed by the same catch. -/
theorem decodeLine_of_parse_null (l : String) (h : JSONparse l = some Json.null) :
    decodeLine l = none := by
  simp [decodeLine, h]

/-- Any line parsed to a non-null value is yielded as exactly one
event, whose members are the JS property accesses on the value. -/
theorem decodeLine_of_parse_some (l : String) (v : Json) (h : JSONparse l = some v)
    (hv : v ≠ Json.null) :
    decodeLine l = some { type := v.getField "type", object := v.getField "object" } := by
  cases v with
  | null => exact absurd rfl hv
  | bool b => simp [decodeLine, h]
  | num s => simp [decodeLine, h]
  | str s => simp [decodeLine, h]
  | arr xs => simp [decodeLine, h]
  | obj fs => simp [decodeLine, h]

/-- The iterator pipeline distributes over concatenation of lines. -/
theorem iterEventsOfLines_append (a b : List String) :
    iterEventsOfLines (a ++ b) = iterEventsOfLines a ++ iterEventsOfLines b := by
  simp [iterEventsOfLines, List.filter_append, List.filterMap_append]

/-- The readline pipeline distributes over concatenation of lines. -/
theorem apiEventsOfLines_append (a b : List String) :
    apiEventsOfLines (a ++ b) = apiEventsOfLines a ++ apiEventsOfLines b := by
  simp [apiEventsOfLines, List.filterMap_append]

/-- A blank or unparseable line contributes no event in the iterator
pipeline. -/
theorem iterEventsOfLines_bad (l : String) (h : jsTrim l = "" ∨ JSONparse l = none) :
    iterEventsOfLines [l] = [] := by
  rcases h with h | h
  · simp [iterEventsOfLines, h]
  · by_cases hb : jsTrim l = ""
    · simp [iterEventsOfLines, hb]
    · simp [iterEventsOfLines, hb, decodeLine_of_parse_none l h]

/-- A blank or unparseable line contributes no event in the readline
pipeline. -/
theorem apiEventsOfLines_bad (l : String) (h : jsTrim l = "" ∨ JSONparse l = none) :
    apiEventsOfLines [l] = [] := by
  rcases h with h | h
  · simp [apiEventsOfLines, decodeLine_of_blank l h]
  · simp [apiEventsOfLines, decodeLine_of_parse_none l h]

/-- The five event kinds of the wire format (`WatchEventType`). -/
def isEventKind (s : String) : Bool :=
  s = "ADDED" || s = "MODIFIED" || s = "DELETED" || s = "BOOKMARK" || s = "ERROR"

/-- A JSON value shaped like a wire event record: an object whose
`type` member is a string naming one of the five event kinds. -/
def isEventRecord : Json → Bool
  | Json.obj fields =>
    match lookupLast fields "type" with
    | some (Json.str k) => isEventKind k
    | _ => false
  | _ => false

/-- Well-formedness of one line of a response body: the line either
fails `JSON.parse` or parses to a wire event record.  A well-formed
body in the sense of the specification has only such lines. -/
def wfLine (l : String) : Bool :=
  match JSONparse l with
  | none => true
  | some v => isEventRecord v

/-- The `type` field of the JSON value of a line, when the line
parses. -/
def lineTypeField (l : String) : Option Json :=
  match JSONparse l with
  | some v => v.getField "type"
  | none => none

/-- The syntactically valid lines: those accepted by `JSON.parse`. -/
def validLines (ls : List String) : List String :=
  ls.filter (fun l => (JSONparse l).isSome)

/-- Valid lines distribute over concatenation. -/
theorem validLines_append (a b : List String) :
    validLines (a ++ b) = validLines a ++ validLines b := by
  simp [validLines, List.filter_append]

/-- An event record is an object. -/
theorem isEventRecord_obj (v : Json) (h : isEventRecord v = true) :
    ∃ fs, v = Json.obj fs := by
  cases v with
  | obj fs => exact ⟨fs, rfl⟩
  | null => simp [isEventRecord] at h
  | bool b => simp [isEventRecord] at h
  | num s => simp [isEventRecord] at h
  | str s => simp [isEventRecord] at h
  | arr xs => simp [isEventRecord] at h

/-- Over well-formed lines, the iterator pipeline yields exactly one
event per syntactically valid line, in order, whose kind is the
`type` field of that line. -/
theorem iterEvents_types_of_wf (ls : List String) (h : ∀ l ∈ ls, wfLine l = true) :
    (iterEventsOfLines ls).map WEvent.type = (validLines ls).map lineTypeField := by
  induction ls with
  | nil => rfl
  | cons l ls ih =>
    have hl := h l (List.mem_cons_self _ _)
    have ih' := ih (fun x hx => h x (List.mem_cons_of_mem _ hx))
    rw [show l :: ls = [l] ++ ls from rfl, iterEventsOfLines_append, validLines_append,
      List.map_append, List.map_append, ih']
    cases hp : JSONparse l with
    | none =>
      rw [iterEventsOfLines_bad l (Or.inr hp)]
      have h2 : validLines [l] = [] := by simp [validLines, hp]
      rw [h2]
      rfl
    | some v =>
      have hrec : isEventRecord v = true := by simpa [wfLine, hp] using hl
      obtain ⟨fs, rfl⟩ := isEventRecord_obj v hrec
      have hne : jsTrim l ≠ "" := jsTrim_ne_of_parse l _ hp
      have hdec := decodeLine_of_parse_some l _ hp (by simp)
      have h1 : iterEventsOfLines [l] =
          [{ type := (Json.obj fs).getField "type", object := (Json.obj fs).getField "object" }] := by
        simp [iterEventsOfLines, hne, hdec]
      have h2 : validLines [l] = [l] := by simp [validLines, hp]
      have h3 : lineTypeField l = (Json.obj fs).getField "type" := by simp [lineTypeField, hp]
      simp [h1, h2, h3]

/-- Over well-formed lines, the readline pipeline yields exactly one
event per syntactically valid line, in order, whose kind is the
`type` field of that line. -/
theorem apiEvents_types_of_wf (ls : List String) (h : ∀ l ∈ ls, wfLine l = true) :
    (apiEventsOfLines ls).map WEvent.type = (validLines ls).map lineTypeField := by
  induction ls with
  | nil => rfl
  | cons l ls ih =>
    have hl := h l (List.mem_cons_self _ _)
    have ih' := ih (fun x hx => h x (List.mem_cons_of_mem _ hx))
    rw [show l :: ls = [l] ++ ls from rfl, apiEventsOfLines_append, validLines_append,
      List.map_append, List.map_append, ih']
    cases hp : JSONparse l with
    | none =>
      rw [apiEventsOfLines_bad l (Or.inr hp)]
      have h2 : validLines [l] = [] := by simp [validLines, hp]
      rw [h2]
      rfl
    | some v =>
      have hrec : isEventRecord v = true := by simpa [wfLine, hp] using hl
      obtain ⟨fs, rfl⟩ := isEventRecord_obj v hrec
      have hdec := decodeLine_of_parse_some l _ hp (by simp)
      have h1 : apiEventsOfLines [l] =
          [{ type := (Json.obj fs).getField "type", object := (Json.obj fs).getField "object" }] := by
        simp [apiEventsOfLines, hdec]
      have h2 : validLines [l] = [l] := by simp [validLines, hp]
      have h3 : lineTypeField l = (Json.obj fs).getField "type" := by simp [lineTypeField, hp]
      simp [h1, h2, h3]

/-- A list of blank lines produces no events in the iterator
pipeline. -/
theorem iterEventsOfLines_all_blank (ls : List String) (h : ∀ m ∈ ls, jsTrim m = "") :
    iterEventsOfLines ls = [] := by
  induction ls with
  | nil => rfl
  | cons l ls ih =>
    rw [show l :: ls = [l] ++ ls from rfl, iterEventsOfLines_append,
      iterEventsOfLines_bad l (Or.inl (h l (List.mem_cons_self _ _))),
      ih (fun x hx => h x (List.mem_cons_of_mem _ hx))]
    rfl

/-- A list of blank lines produces no events in the readline
pipeline. -/
theorem apiEventsOfLines_all_blank (ls : List String) (h : ∀ m ∈ ls, jsTrim m = "") :
    apiEventsOfLines ls = [] := by
  induction ls with
  | nil => rfl
  | cons l ls ih =>
    rw [show l :: ls = [l] ++ ls from rfl, apiEventsOfLines_append,
      apiEventsOfLines_bad l (Or.inl (h l (List.mem_cons_self _ _))),
      ih (fun x hx => h x (List.mem_cons_of_mem _ hx))]
    rfl

/-- C1: for every well-formed response body consumed with HTTP status
200, the sequence of events yielded by watch (in both the
WatchIterator and WatchApi variants) has event kinds equal, in order,
to the type fields of every syntactically valid, non-blank line of
the body, with no reordering, deduplication, or coalescing.
Well-formedness of a body means every line either fails `JSON.parse`
or parses to a wire event record (`wfLine`); syntactically valid
lines are automatically non-blank (`jsTrim_ne_of_parse`). -/
theorem c1_event_kinds_in_order (body bodyA st : String)
    (hwI : (iterLines body).all wfLine = true)
    (hwA : (apiLines bodyA).all wfLine = true) :
    watchIterator 200 body = Except.ok (watchIteratorEvents body) ∧
    (watchIteratorEvents body).map WEvent.type = (validLines (iterLines body)).map lineTypeField ∧
    watchApi 200 st bodyA = Except.ok (watchApiEvents bodyA) ∧
    (watchApiEvents bodyA).map WEvent.type = (validLines (apiLines bodyA)).map lineTypeField := by
  refine ⟨by simp [watchIterator], ?_, by simp [watchApi], ?_⟩
  · exact iterEvents_types_of_wf _ (by simpa [List.all_eq_true] using hwI)
  · exact apiEvents_types_of_wf _ (by simpa [List.all_eq_true] using hwA)

/-- Witness for C1 on a concrete three-line body. -/
theorem c1_event_kinds_in_order_witness :
    ((iterLines "\x7b\"type\":\"ADDED\",\"object\":\x7b\"k\":1\x7d\x7d\n\x7b\"type\":\"MODIFIED\",\"object\":2\x7d\n\x7b\"type\":\"DELETED\",\"object\":null\x7d").all wfLine = true) ∧
    (watchIteratorEvents "\x7b\"type\":\"ADDED\",\"object\":\x7b\"k\":1\x7d\x7d\n\x7b\"type\":\"MODIFIED\",\"object\":2\x7d\n\x7b\"type\":\"DELETED\",\"object\":null\x7d").map WEvent.type =
      (validLines (iterLines "\x7b\"type\":\"ADDED\",\"object\":\x7b\"k\":1\x7d\x7d\n\x7b\"type\":\"MODIFIED\",\"object\":2\x7d\n\x7b\"type\":\"DELETED\",\"object\":null\x7d")).map lineTypeField :=
  ⟨by rfl,
   (c1_event_kinds_in_order
      "\x7b\"type\":\"ADDED\",\"object\":\x7b\"k\":1\x7d\x7d\n\x7b\"type\":\"MODIFIED\",\"object\":2\x7d\n\x7b\"type\":\"DELETED\",\"object\":null\x7d"
      "\x7b\"type\":\"ADDED\",\"object\":\x7b\"k\":1\x7d\x7d\n\x7b\"type\":\"MODIFIED\",\"object\":2\x7d\n\x7b\"type\":\"DELETED\",\"object\":null\x7d"
      "" (by rfl) (by rfl)).2.1⟩

/-- C2: every line that is empty, whitespace-only, or rejected by
`JSON.parse` contributes zero events and does not halt decoding of the
remaining lines, in both variants; an all-blank or empty body makes
watch yield zero events and raise no error. -/
theorem c2_bad_lines_skipped (pre post : List String) (l st body bodyA : String) :
    ((jsTrim l = "" ∨ JSONparse l = none) →
      iterEventsOfLines (pre ++ l :: post) = iterEventsOfLines (pre ++ post) ∧
      apiEventsOfLines (pre ++ l :: post) = apiEventsOfLines (pre ++ post)) ∧
    ((∀ m ∈ iterLines body, jsTrim m = "") → watchIterator 200 body = Except.ok []) ∧
    ((∀ m ∈ apiLines bodyA, jsTrim m = "") → watchApi 200 st bodyA = Except.ok []) ∧
    watchIterator 200 "" = Except.ok [] ∧
    watchApi 200 st "" = Except.ok [] := by
  refine ⟨?_, ?_, ?_, ?_, ?_⟩
  · intro h
    constructor
    · have e1 : iterEventsOfLines (pre ++ l :: post) =
          iterEventsOfLines pre ++ (iterEventsOfLines [l] ++ iterEventsOfLines post) := by
        rw [← iterEventsOfLines_append, ← iterEventsOfLines_append]
        simp
      rw [e1, iterEventsOfLines_bad l h, iterEventsOfLines_append]
      simp
    · have e1 : apiEventsOfLines (pre ++ l :: post) =
          apiEventsOfLines pre ++ (apiEventsOfLines [l] ++ apiEventsOfLines post) := by
        rw [← apiEventsOfLines_append, ← apiEventsOfLines_append]
        simp
      rw [e1, apiEventsOfLines_bad l h, apiEventsOfLines_append]
      simp
  · intro hb
    simp [watchIterator, watchIteratorEvents, iterEventsOfLines_all_blank _ hb]
  · intro hb
    simp [watchApi, watchApiEvents, apiEventsOfLines_all_blank _ hb]
  · rfl
  · rfl

/-- Witness for C2 on a concrete whitespace line sitting between two
valid lines, and on concrete all-blank and empty bodies. -/
theorem c2_bad_lines_skipped_witness :
    (jsTrim "  " = "" ∨ JSONparse "  " = none) ∧
    iterEventsOfLines (["\x7b\"type\":\"ADDED\",\"object\":null\x7d"] ++ "  " ::
        ["\x7b\"type\":\"DELETED\",\"object\":null\x7d"]) =
      iterEventsOfLines (["\x7b\"type\":\"ADDED\",\"object\":null\x7d"] ++
        ["\x7b\"type\":\"DELETED\",\"object\":null\x7d"]) ∧
    (∀ m ∈ iterLines " \n\t ", jsTrim m = "") ∧
    watchIterator 200 " \n\t " = Except.ok [] ∧
    watchIterator 200 "" = Except.ok [] ∧
    watchApi 200 "" "" = Except.ok [] :=
  ⟨Or.inl rfl,
   ((c2_bad_lines_skipped ["\x7b\"type\":\"ADDED\",\"object\":null\x7d"]
      ["\x7b\"type\":\"DELETED\",\"object\":null\x7d"] "  " "" " \n\t " "").1 (Or.inl rfl)).1,
   by decide,
   (c2_bad_lines_skipped ["\x7b\"type\":\"ADDED\",\"object\":null\x7d"]
      ["\x7b\"type\":\"DELETED\",\"object\":null\x7d"] "  " "" " \n\t " "").2.1 (by decide),
   (c2_bad_lines_skipped ["\x7b\"type\":\"ADDED\",\"object\":null\x7d"]
      ["\x7b\"type\":\"DELETED\",\"object\":null\x7d"] "  " "" " \n\t " "").2.2.2.1,
   (c2_bad_lines_skipped ["\x7b\"type\":\"ADDED\",\"object\":null\x7d"]
      ["\x7b\"type\":\"DELETED\",\"object\":null\x7d"] "  " "" " \n\t " "").2.2.2.2⟩

/-- C8: a response line whose parsed value carries the type field
ERROR, standing as the only or last valid line (everything after it
decodes to nothing), is yielded by both variants as an event of kind
ERROR carrying the parsed payload opaquely, and the call ends in the
ok outcome, not a thrown failure. -/
theorem c8_error_event_yielded (st l : String) (v : Json) (pre junk : List String)
    (bodyA bodyI : String)
    (hp : JSONparse l = some v)
    (ht : v.getField "type" = some (Json.str "ERROR"))
    (hjunk : ∀ j ∈ junk, decodeLine j = none)
    (hA : apiLines bodyA = pre ++ l :: junk)
    (hI : iterLines bodyI = pre ++ l :: junk) :
    watchApi 200 st bodyA =
      Except.ok (apiEventsOfLines pre ++
        [{ type := some (Json.str "ERROR"), object := v.getField "object" }]) ∧
    watchIterator 200 bodyI =
      Except.ok (iterEventsOfLines pre ++
        [{ type := some (Json.str "ERROR"), object := v.getField "object" }]) := by
  have hv : v ≠ Json.null := by
    intro hn
    subst hn
    simp [Json.getField] at ht
  have hdec := decodeLine_of_parse_some l v hp hv
  have hne := jsTrim_ne_of_parse l v hp
  have hjA : apiEventsOfLines junk = [] := List.filterMap_eq_nil_iff.mpr hjunk
  have hjI : iterEventsOfLines junk = [] :=
    List.filterMap_eq_nil_iff.mpr (fun a ha => hjunk a (List.mem_of_mem_filter ha))
  constructor
  · have e1 : apiEventsOfLines (pre ++ l :: junk) =
        apiEventsOfLines pre ++ (apiEventsOfLines [l] ++ apiEventsOfLines junk) := by
      rw [← apiEventsOfLines_append, ← apiEventsOfLines_append]
      simp
    have hl1 : apiEventsOfLines [l] =
        [{ type := some (Json.str "ERROR"), object := v.getField "object" }] := by
      simp [apiEventsOfLines, hdec, ht]
    simp [watchApi, watchApiEvents, hA, e1, hl1, hjA]
  · have e1 : iterEventsOfLines (pre ++ l :: junk) =
        iterEventsOfLines pre ++ (iterEventsOfLines [l] ++ iterEventsOfLines junk) := by
      rw [← iterEventsOfLines_append, ← iterEventsOfLines_append]
      simp
    have hl1 : iterEventsOfLines [l] =
        [{ type := some (Json.str "ERROR"), object := v.getField "object" }] := by
      simp [iterEventsOfLines, hne, hdec, ht]
    simp [watchIterator, watchIteratorEvents, hI, e1, hl1, hjI]

/-- Witness for C8 on a concrete body whose last valid line is an
ERROR frame with a code 410 payload, followed by one undecodable
fragment. -/
theorem c8_error_event_yielded_witness :
    watchApi 200 ""
        "\x7b\"type\":\"ADDED\",\"object\":null\x7d\n\x7b\"type\":\"ERROR\",\"object\":\x7b\"code\":410\x7d\x7d\n\x7b\"bad" =
      Except.ok (apiEventsOfLines ["\x7b\"type\":\"ADDED\",\"object\":null\x7d"] ++
        [{ type := some (Json.str "ERROR"),
           object := some (Json.obj [("code", Json.num "410")]) }]) ∧
    watchIterator 200
        "\x7b\"type\":\"ADDED\",\"object\":null\x7d\n\x7b\"type\":\"ERROR\",\"object\":\x7b\"code\":410\x7d\x7d\n\x7b\"bad" =
      Except.ok (iterEventsOfLines ["\x7b\"type\":\"ADDED\",\"object\":null\x7d"] ++
        [{ type := some (Json.str "ERROR"),
           object := some (Json.obj [("code", Json.num "410")]) }]) :=
  c8_error_event_yielded ""
    "\x7b\"type\":\"ERROR\",\"object\":\x7b\"code\":410\x7d\x7d"
    (Json.obj [("type", Json.str "ERROR"), ("object", Json.obj [("code", Json.num "410")])])
    ["\x7b\"type\":\"ADDED\",\"object\":null\x7d"] ["\x7b\"bad"]
    "\x7b\"type\":\"ADDED\",\"object\":null\x7d\n\x7b\"type\":\"ERROR\",\"object\":\x7b\"code\":410\x7d\x7d\n\x7b\"bad"
    "\x7b\"type\":\"ADDED\",\"object\":null\x7d\n\x7b\"type\":\"ERROR\",\"object\":\x7b\"code\":410\x7d\x7d\n\x7b\"bad"
    (by rfl) (by rfl)
    (by
      intro j hj
      simp at hj
      subst hj
      rfl)
    (by rfl) (by rfl)

/-- C4: for every response with HTTP status different from 200, watch
yields zero events and raises exactly one terminal failure carrying
that numeric status code, in both variants; the response body is never
frame-decoded (the iterator outcome is independent of the body, and
the WatchApi failure embeds the body as raw text only). -/
theorem c4_non200_single_failure (status : Nat) (st body body2 : String)
    (h : status ≠ 200) :
    watchIterator status body =
      Except.error { message := iterStatusText status, statusCode := some status } ∧
    watchApi status st body =
      Except.error { code := status, message := apiStatusText st status, body := body } ∧
    watchIterator status body = watchIterator status body2 := by
  refine ⟨by simp [watchIterator, h], by simp [watchApi, h], by simp [watchIterator, h]⟩

/-- Witness for C4 at status 500. -/
theorem c4_non200_single_failure_witness :
    (500 ≠ 200) ∧
    watchIterator 500 "\x7b\"type\":\"ADDED\",\"object\":null\x7d" =
      Except.error { message := "Internal Server Error", statusCode := some 500 } :=
  ⟨by decide,
   (c4_non200_single_failure 500 "" "\x7b\"type\":\"ADDED\",\"object\":null\x7d" "" (by decide)).1⟩

/-- C5 counterexample: the claim says the terminal failure of every
variant carries the raw response body, but the `WatchError` thrown by
`WatchIterator.watch` has only a message and a status code; two
responses with status 500 and entirely different bodies produce the
identical failure, so no part of the failure carries the body. -/
theorem c5_counterexample_no_body_in_iterator_failure :
    watchIterator 500 "diagnostic body A" = watchIterator 500 "completely different body" ∧
    watchIterator 500 "diagnostic body A" =
      Except.error { message := "Internal Server Error", statusCode := some 500 } :=
  ⟨rfl, rfl⟩

/-- C5 amended: for a non-200 status the WatchApi failure carries all
three of the numeric status, a human-readable status description and
the raw response body, while the WatchIterator failure carries only
the numeric status and a human-readable description; its outcome does
not depend on the body at all. -/
theorem c5_amended_failure_contents (status : Nat) (st body b2 : String)
    (h : status ≠ 200) :
    (∃ e : ApiException, watchApi status st body = Except.error e ∧
      e.code = status ∧ e.message = apiStatusText st status ∧ e.body = body) ∧
    (∃ w : WatchError, watchIterator status body = Except.error w ∧
      w.statusCode = some status ∧ w.message = iterStatusText status) ∧
    watchIterator status body = watchIterator status b2 := by
  refine ⟨⟨{ code := status, message := apiStatusText st status, body := body },
      by simp [watchApi, h], rfl, rfl, rfl⟩,
    ⟨{ message := iterStatusText status, statusCode := some status },
      by simp [watchIterator, h], rfl, rfl⟩,
    by simp [watchIterator, h]⟩

/-- Witness for the amended C5 at status 404 with a concrete body. -/
theorem c5_amended_failure_contents_witness :
    (404 ≠ 200) ∧
    (∃ e : ApiException, watchApi 404 "" "raw diagnostics" = Except.error e ∧
      e.code = 404 ∧ e.message = apiStatusText "" 404 ∧ e.body = "raw diagnostics") :=
  ⟨by decide, (c5_amended_failure_contents 404 "" "raw diagnostics" "x" (by decide)).1⟩

/-- One step of the LF split on a nonempty input. -/
theorem splitNlAux_cons (c : Char) (rest acc : List Char) :
    splitNlAux (c :: rest) acc =
      if c = '\n' then String.mk acc :: splitNlAux rest [] else splitNlAux rest (acc ++ [c]) := rfl

/-- The LF split never produces an empty list. -/
theorem splitNlAux_ne_nil (cs : List Char) : ∀ acc, splitNlAux cs acc ≠ [] := by
  induction cs with
  | nil => intro acc; simp [splitNlAux]
  | cons c rest ih =>
    intro acc
    by_cases h : c = '\n'
    · simp [splitNlAux, h]
    · simp only [splitNlAux, if_neg h]
      exact ih (acc ++ [c])

/-- Processing an LF boundary resets the LF split: the lines after the
boundary are computed independently of the prefix. -/
theorem splitNlAux_break (xs : List Char) : ∀ (acc ys : List Char),
    splitNlAux (xs ++ '\n' :: ys) acc =
      (splitNlAux (xs ++ ['\n']) acc).dropLast ++ splitNlAux ys [] := by
  induction xs with
  | nil =>
    intro acc ys
    simp [splitNlAux]
  | cons c rest ih =>
    intro acc ys
    rw [List.cons_append, List.cons_append, splitNlAux_cons, splitNlAux_cons]
    by_cases h : c = '\n'
    · rw [if_pos h, if_pos h]
      rw [List.dropLast_cons_of_ne_nil (splitNlAux_ne_nil _ _)]
      rw [ih [] ys]
      simp
    · rw [if_neg h, if_neg h]
      exact ih (acc ++ [c]) ys

/-- An LF-free input is a single line for the LF split. -/
theorem splitNlAux_no_nl (cs : List Char) : ∀ acc, (∀ c ∈ cs, c ≠ '\n') →
    splitNlAux cs acc = [String.mk (acc ++ cs)] := by
  induction cs with
  | nil => intro acc h; simp [splitNlAux]
  | cons c rest ih =>
    intro acc h
    have hc := h c (List.mem_cons_self _ _)
    simp only [splitNlAux, if_neg hc]
    rw [ih (acc ++ [c]) (fun x hx => h x (List.mem_cons_of_mem _ hx))]
    simp

/-- An LF-terminated input ends in an empty field under the LF
split. -/
theorem splitNlAux_ends_empty (xs : List Char) : ∀ acc,
    ∃ M, splitNlAux (xs ++ ['\n']) acc = M ++ [""] := by
  induction xs with
  | nil =>
    intro acc
    exact ⟨[String.mk acc], by simp [splitNlAux]⟩
  | cons c rest ih =>
    intro acc
    by_cases h : c = '\n'
    · subst h
      obtain ⟨M, hM⟩ := ih []
      exact ⟨String.mk acc :: M, by simp [splitNlAux, hM]⟩
    · obtain ⟨M, hM⟩ := ih (acc ++ [c])
      refine ⟨M, ?_⟩
      simp only [List.cons_append, splitNlAux, if_neg h]
      exact hM

/-- One step of the readline split on a nonempty input. -/
theorem splitLinesAux_cons (sawCR : Bool) (c : Char) (rest acc : List Char) :
    splitLinesAux sawCR (c :: rest) acc =
      if sawCR && c = '\n' then splitLinesAux false rest acc
      else if c = '\n' then String.mk acc :: splitLinesAux false rest []
      else if c = '\r' then String.mk acc :: splitLinesAux true rest []
      else splitLinesAux false rest (acc ++ [c]) := rfl

/-- Processing an LF boundary resets the readline split: the lines
after the boundary are computed independently of the prefix.  The
hypothesis is the invariant of the splitter that a pending CR always
has an empty accumulator. -/
theorem splitLinesAux_break (xs : List Char) : ∀ (flag : Bool) (acc ys : List Char),
    (flag = true → acc = []) →
    splitLinesAux flag (xs ++ '\n' :: ys) acc =
      splitLinesAux flag (xs ++ ['\n']) acc ++ splitLinesAux false ys [] := by
  induction xs with
  | nil =>
    intro flag acc ys hinv
    cases flag with
    | false =>
      rw [List.nil_append, List.nil_append, splitLinesAux_cons, splitLinesAux_cons]
      simp [splitLinesAux]
    | true =>
      have ha : acc = [] := hinv rfl
      subst ha
      rw [List.nil_append, List.nil_append, splitLinesAux_cons, splitLinesAux_cons]
      simp [splitLinesAux]
  | cons c rest ih =>
    intro flag acc ys hinv
    rw [List.cons_append, List.cons_append, splitLinesAux_cons, splitLinesAux_cons]
    by_cases h1 : (flag && c = '\n') = true
    · rw [if_pos h1, if_pos h1]
      exact ih false acc ys (fun hh => nomatch hh)
    · rw [if_neg h1, if_neg h1]
      by_cases h2 : c = '\n'
      · rw [if_pos h2, if_pos h2]
        rw [ih false [] ys (fun _ => rfl)]
        simp
      · rw [if_neg h2, if_neg h2]
        by_cases h3 : c = '\r'
        · rw [if_pos h3, if_pos h3]
          rw [ih true [] ys (fun _ => rfl)]
          simp
        · rw [if_neg h3, if_neg h3]
          exact ih false (acc ++ [c]) ys (fun hh => nomatch hh)

/-- A terminator-free input is at most a single line for the readline
split. -/
theorem splitLinesAux_no_term (cs : List Char) : ∀ (flag : Bool) (acc : List Char),
    (∀ c ∈ cs, c ≠ '\n' ∧ c ≠ '\r') →
    splitLinesAux flag cs acc =
      if acc ++ cs = [] then [] else [String.mk (acc ++ cs)] := by
  induction cs with
  | nil =>
    intro flag acc h
    simp [splitLinesAux]
  | cons c rest ih =>
    intro flag acc h
    obtain ⟨hc, hr⟩ := h c (List.mem_cons_self _ _)
    rw [splitLinesAux_cons]
    rw [if_neg (by simp [hc]), if_neg hc, if_neg hr]
    rw [ih false (acc ++ [c]) (fun x hx => h x (List.mem_cons_of_mem _ hx))]
    simp

/-- C3 counterexample: the claim states that outside the whole-body
variant an unterminated trailing fragment is discarded and never
decoded; but the streaming `WatchApi.watch` variant, on a body that is
a single valid line with no terminating newline, decodes the fragment
and yields its event instead of discarding it. -/
theorem c3_counterexample_streaming_decodes_fragment :
    watchApi 200 "" "\x7b\"type\":\"ADDED\",\"object\":null\x7d" =
      Except.ok [{ type := some (Json.str "ADDED"), object := some Json.null }] := rfl

/-- C3 amended: in both variants an unterminated trailing fragment is
not discarded: it is emitted as one final line and decoding it is
attempted exactly once, exactly as for a terminated line. -/
theorem c3_amended_trailing_fragment_decoded (pre frag : String)
    (hfr : ∀ c ∈ frag.data, c ≠ '\n' ∧ c ≠ '\r')
    (hne : frag ≠ "") :
    apiLines (pre ++ "\n" ++ frag) = apiLines (pre ++ "\n") ++ [frag] ∧
    watchApiEvents (pre ++ "\n" ++ frag) = watchApiEvents (pre ++ "\n") ++ apiEventsOfLines [frag] ∧
    watchIteratorEvents (pre ++ "\n" ++ frag) =
      watchIteratorEvents (pre ++ "\n") ++ iterEventsOfLines [frag] := by
  have hdl : frag.data ≠ [] := by
    intro hd
    apply hne
    cases frag with
    | mk l =>
      simp only [String.data] at hd
      rw [hd]
  have hd1 : (pre ++ "\n" ++ frag).data = pre.data ++ '\n' :: frag.data := by
    simp [String.data_append]
  have hd2 : (pre ++ "\n").data = pre.data ++ ['\n'] := by
    simp [String.data_append]
  have hmk : String.mk frag.data = frag := by
    cases frag
    rfl
  have hA : apiLines (pre ++ "\n" ++ frag) = apiLines (pre ++ "\n") ++ [frag] := by
    unfold apiLines
    rw [hd1, hd2, splitLinesAux_break pre.data false [] frag.data (fun hh => nomatch hh)]
    rw [splitLinesAux_no_term frag.data false [] hfr]
    simp [hdl, hmk]
  have hEA : watchApiEvents (pre ++ "\n" ++ frag) =
      watchApiEvents (pre ++ "\n") ++ apiEventsOfLines [frag] := by
    unfold watchApiEvents
    rw [hA, apiEventsOfLines_append]
  have hnl : ∀ c ∈ frag.data, c ≠ '\n' := fun c hc => (hfr c hc).1
  have hI : iterLines (pre ++ "\n" ++ frag) = (iterLines (pre ++ "\n")).dropLast ++ [frag] := by
    unfold iterLines
    rw [hd1, hd2, splitNlAux_break]
    rw [splitNlAux_no_nl frag.data [] hnl]
    simp [hmk]
  obtain ⟨M, hM⟩ := splitNlAux_ends_empty pre.data []
  have hM2 : iterLines (pre ++ "\n") = M ++ [""] := by
    unfold iterLines
    rw [hd2]
    exact hM
  have hEI : watchIteratorEvents (pre ++ "\n" ++ frag) =
      iterEventsOfLines M ++ iterEventsOfLines [frag] := by
    unfold watchIteratorEvents
    rw [hI, hM2, List.dropLast_concat, iterEventsOfLines_append]
  have hEI2 : watchIteratorEvents (pre ++ "\n") = iterEventsOfLines M := by
    unfold watchIteratorEvents
    rw [hM2, iterEventsOfLines_append, iterEventsOfLines_bad "" (Or.inl rfl)]
    simp
  exact ⟨hA, hEA, by rw [hEI, hEI2]⟩

/-- Witness for the amended C3: a terminated ADDED line followed by an
unterminated DELETED fragment is decoded by both variants. -/
theorem c3_amended_trailing_fragment_decoded_witness :
    apiLines ("\x7b\"type\":\"ADDED\",\"object\":null\x7d" ++ "\n" ++
        "\x7b\"type\":\"DELETED\",\"object\":null\x7d") =
      apiLines ("\x7b\"type\":\"ADDED\",\"object\":null\x7d" ++ "\n") ++
        ["\x7b\"type\":\"DELETED\",\"object\":null\x7d"] ∧
    watchApiEvents ("\x7b\"type\":\"ADDED\",\"object\":null\x7d" ++ "\n" ++
        "\x7b\"type\":\"DELETED\",\"object\":null\x7d") =
      watchApiEvents ("\x7b\"type\":\"ADDED\",\"object\":null\x7d" ++ "\n") ++
        apiEventsOfLines ["\x7b\"type\":\"DELETED\",\"object\":null\x7d"] ∧
    watchIteratorEvents ("\x7b\"type\":\"ADDED\",\"object\":null\x7d" ++ "\n" ++
        "\x7b\"type\":\"DELETED\",\"object\":null\x7d") =
      watchIteratorEvents ("\x7b\"type\":\"ADDED\",\"object\":null\x7d" ++ "\n") ++
        iterEventsOfLines ["\x7b\"type\":\"DELETED\",\"object\":null\x7d"] :=
  c3_amended_trailing_fragment_decoded
    "\x7b\"type\":\"ADDED\",\"object\":null\x7d"
    "\x7b\"type\":\"DELETED\",\"object\":null\x7d"
    (by decide) (by decide)

/-- First-match lookup on a cons cell. -/
theorem getParam_cons (p : String × String) (q : List (String × String)) (k : String) :
    getParam (p :: q) k = if p.1 = k then some p.2 else getParam q k := by
  by_cases h : p.1 = k
  · simp [getParam, List.find?_cons, h]
  · simp [getParam, List.find?_cons, h]

/-- Key count on a cons cell. -/
theorem countKey_cons (p : String × String) (q : List (String × String)) (k : String) :
    countKey (p :: q) k = (if p.1 = k then 1 else 0) + countKey q k := by
  by_cases h : p.1 = k <;> simp [countKey, List.filter_cons, h, Nat.add_comm]

/-- Removing every binding of a key leaves zero occurrences of it. -/
theorem countKey_filter_self (q : List (String × String)) (k : String) :
    countKey (q.filter (fun p => !(p.1 == k))) k = 0 := by
  simp [countKey, List.filter_filter]

/-- Removing every binding of one key does not change the count of a
different key. -/
theorem countKey_filter_other (q : List (String × String)) (k k' : String) (h : k' ≠ k) :
    countKey (q.filter (fun p => !(p.1 == k))) k' = countKey q k' := by
  unfold countKey
  rw [List.filter_filter]
  apply congrArg List.length
  apply List.filter_congr
  intro x _
  by_cases hx : x.1 = k'
  · have : x.1 ≠ k := by rw [hx]; exact h
    simp [hx, this, h]
  · simp [hx]

/-- Removing every binding of one key does not change the lookup of a
different key. -/
theorem getParam_filter_other (q : List (String × String)) (k k' : String) (h : k' ≠ k) :
    getParam (q.filter (fun p => !(p.1 == k))) k' = getParam q k' := by
  induction q with
  | nil => rfl
  | cons p rest ih =>
    by_cases hp : p.1 = k
    · have hb : (!(p.1 == k)) = false := by simp [hp]
      have hp2 : ¬ p.1 = k' := by rw [hp]; exact fun he => h he.symm
      simp [List.filter_cons, hb, getParam_cons, hp2, ih]
    · have hb : (!(p.1 == k)) = true := by simp [hp]
      by_cases hpk : p.1 = k' <;> simp [List.filter_cons, hb, getParam_cons, hpk, ih, h]

/-- Setting a key makes its lookup the new value. -/
theorem getParam_set_self (q : List (String × String)) (k v : String) :
    getParam (setParam q k v) k = some v := by
  induction q with
  | nil => simp [setParam, getParam_cons]
  | cons p rest ih =>
    by_cases h : p.1 = k
    · simp [setParam, h, getParam_cons]
    · simp [setParam, h, getParam_cons, ih]

/-- Setting a key leaves the lookup of a different key unchanged. -/
theorem getParam_set_other (q : List (String × String)) (k v k' : String) (h : k' ≠ k) :
    getParam (setParam q k v) k' = getParam q k' := by
  induction q with
  | nil =>
    have hk : ¬ k = k' := fun he => h he.symm
    simp [setParam, getParam_cons, hk]
  | cons p rest ih =>
    by_cases hp : p.1 = k
    · have hk : ¬ k = k' := fun he => h he.symm
      have hp2 : ¬ p.1 = k' := by rw [hp]; exact hk
      simp [setParam, hp, getParam_cons, hk, hp2, getParam_filter_other rest k k' h]
    · by_cases hpk : p.1 = k' <;> simp [setParam, hp, getParam_cons, hpk, ih, h]

/-- Setting a key gives it exactly one occurrence. -/
theorem countKey_set_self (q : List (String × String)) (k v : String) :
    countKey (setParam q k v) k = 1 := by
  induction q with
  | nil => simp [setParam, countKey_cons, countKey]
  | cons p rest ih =>
    by_cases h : p.1 = k
    · simp [setParam, h, countKey_cons, countKey_filter_self]
    · simp [setParam, h, countKey_cons, ih]

/-- Setting a key does not change the count of a different key. -/
theorem countKey_set_other (q : List (String × String)) (k v k' : String) (h : k' ≠ k) :
    countKey (setParam q k v) k' = countKey q k' := by
  induction q with
  | nil =>
    have hk : ¬ k = k' := fun he => h he.symm
    simp [setParam, countKey_cons, countKey, hk]
  | cons p rest ih =>
    by_cases hp : p.1 = k
    · have hk : ¬ k = k' := fun he => h he.symm
      have hp2 : ¬ p.1 = k' := by rw [hp]; exact hk
      simp [setParam, hp, countKey_cons, hk, hp2, countKey_filter_other rest k k' h]
    · simp [setParam, hp, countKey_cons, ih]

/-- A key set by no entry of the caller map passes through the
`WatchApi.watch` query fold untouched. -/
theorem apiFold_not_mem (params : List (String × Option JsPrim)) :
    ∀ (q0 : List (String × String)) (k : String),
    (∀ v : JsPrim, (k, some v) ∉ params) →
    getParam (params.foldl
      (fun q p =>
        match p.2 with
        | some v => setParam q p.1 (jsToString v)
        | none => q) q0) k = getParam q0 k ∧
    countKey (params.foldl
      (fun q p =>
        match p.2 with
        | some v => setParam q p.1 (jsToString v)
        | none => q) q0) k = countKey q0 k := by
  induction params with
  | nil => intro q0 k h; exact ⟨rfl, rfl⟩
  | cons p rest ih =>
    intro q0 k h
    rcases p with ⟨k1, mv⟩
    cases mv with
    | none =>
      simp only [List.foldl_cons]
      exact ih q0 k (fun v hv => h v (List.mem_cons_of_mem _ hv))
    | some v1 =>
      simp only [List.foldl_cons]
      have hk1 : k ≠ k1 := by
        intro he
        subst he
        exact h v1 (List.mem_cons_self _ _)
      have hrec := ih (setParam q0 k1 (jsToString v1)) k
        (fun v hv => h v (List.mem_cons_of_mem _ hv))
      constructor
      · rw [hrec.1, getParam_set_other _ _ _ _ hk1]
      · rw [hrec.2, countKey_set_other _ _ _ _ hk1]

/-- A defined entry of the caller map with a key no other entry uses
ends up in the `WatchApi.watch` query exactly once, bound to the
`toString` form of its value. -/
theorem apiFold_mem (params : List (String × Option JsPrim)) :
    ∀ (q0 : List (String × String)) (k : String) (v : JsPrim),
    (params.map Prod.fst).Nodup →
    (k, some v) ∈ params →
    getParam (params.foldl
      (fun q p =>
        match p.2 with
        | some v => setParam q p.1 (jsToString v)
        | none => q) q0) k = some (jsToString v) ∧
    countKey (params.foldl
      (fun q p =>
        match p.2 with
        | some v => setParam q p.1 (jsToString v)
        | none => q) q0) k = 1 := by
  induction params with
  | nil =>
    intro q0 k v hn hm
    exact absurd hm (List.not_mem_nil _)
  | cons p rest ih =>
    intro q0 k v hn hm
    rcases p with ⟨k1, mv⟩
    rcases List.mem_cons.mp hm with he | hm2
    · obtain ⟨hk, hv⟩ := Prod.mk.injEq .. |>.mp he
      subst hk
      subst hv
      simp only [List.foldl_cons]
      have hknotin : ∀ v' : JsPrim, (k, some v') ∉ rest := by
        intro v' hv'
        have hkin : k ∈ rest.map Prod.fst := List.mem_map_of_mem Prod.fst hv'
        exact (List.nodup_cons.mp hn).1 hkin
      have hrec := apiFold_not_mem rest (setParam q0 k (jsToString v)) k hknotin
      constructor
      · rw [hrec.1, getParam_set_self]
      · rw [hrec.2, countKey_set_self]
    · have hn2 : (rest.map Prod.fst).Nodup := (List.nodup_cons.mp hn).2
      cases mv with
      | none =>
        simp only [List.foldl_cons]
        exact ih q0 k v hn2 hm2
      | some w =>
        simp only [List.foldl_cons]
        exact ih (setParam q0 k1 (jsToString w)) k v hn2 hm2

/-- Full characterization of the query built by `WatchIterator.watch`:
`watch=true` exactly once; each supplied string option exactly once
with its verbatim value, absent otherwise; `allowWatchBookmarks=true`
exactly once when the effective Boolean is true, absent otherwise. -/
theorem buildIteratorQuery_spec (o : WatchOptions) :
    getParam (buildIteratorQuery o) "watch" = some "true" ∧
    countKey (buildIteratorQuery o) "watch" = 1 ∧
    (∀ rv, o.resourceVersion = some rv →
      getParam (buildIteratorQuery o) "resourceVersion" = some rv ∧
      countKey (buildIteratorQuery o) "resourceVersion" = 1) ∧
    (o.resourceVersion = none → countKey (buildIteratorQuery o) "resourceVersion" = 0) ∧
    (∀ sel, o.labelSelector = some sel →
      getParam (buildIteratorQuery o) "labelSelector" = some sel ∧
      countKey (buildIteratorQuery o) "labelSelector" = 1) ∧
    (o.labelSelector = none → countKey (buildIteratorQuery o) "labelSelector" = 0) ∧
    (∀ sel, o.fieldSelector = some sel →
      getParam (buildIteratorQuery o) "fieldSelector" = some sel ∧
      countKey (buildIteratorQuery o) "fieldSelector" = 1) ∧
    (o.fieldSelector = none → countKey (buildIteratorQuery o) "fieldSelector" = 0) ∧
    (effAllowWatchBookmarks o = true →
      getParam (buildIteratorQuery o) "allowWatchBookmarks" = some "true" ∧
      countKey (buildIteratorQuery o) "allowWatchBookmarks" = 1) ∧
    (o.allowWatchBookmarks = some false →
      countKey (buildIteratorQuery o) "allowWatchBookmarks" = 0) := by
  rcases o with ⟨rv, lsel, fsel, tm, ab⟩
  rcases rv with _ | rv <;> rcases lsel with _ | lsel <;> rcases fsel with _ | fsel <;>
    rcases ab with _ | b <;> (try cases b) <;>
    simp [buildIteratorQuery, effAllowWatchBookmarks, setParam, getParam, countKey]

/-- When the caller map has no `watch` key, the unconditional
`watch=true` of `WatchApi.watch` survives the caller entries. -/
theorem buildApiQuery_watch (params : List (String × Option JsPrim))
    (hw : "watch" ∉ params.map Prod.fst) :
    getParam (buildApiQuery params) "watch" = some "true" ∧
    countKey (buildApiQuery params) "watch" = 1 := by
  have hnot : ∀ v : JsPrim, ("watch", some v) ∉ params :=
    fun v hv => hw (List.mem_map_of_mem Prod.fst hv)
  have h := apiFold_not_mem params (setParam [] "watch" "true") "watch" hnot
  unfold buildApiQuery
  constructor
  · rw [h.1]
    rfl
  · rw [h.2]
    rfl

/-- C6 counterexample: the claim says an explicitly supplied
`allowWatchBookmarks: false` appears as `allowWatchBookmarks=false`;
in `WatchIterator.watch` the guard `if (allowWatchBookmarks)` skips
the falsy value, so the parameter is entirely absent from the query. -/
theorem c6_counterexample_false_bookmarks_omitted :
    buildIteratorQuery (WatchOptions.mk none none none none (some false)) =
      [("watch", "true")] ∧
    getParam (buildIteratorQuery (WatchOptions.mk none none none none (some false)))
      "allowWatchBookmarks" = none :=
  ⟨rfl, rfl⟩

/-- C6 amended: the query always contains `watch=true` exactly once;
each supplied string option appears exactly once with its literal
value; `allowWatchBookmarks` appears (always with the literal value
`true`) exactly when its effective Boolean is true, and an explicitly
supplied false omits the parameter entirely.  In the WatchApi variant
every defined caller entry appears exactly once in its `toString`
form, and `watch=true` is present whenever the caller map does not
itself shadow the `watch` key. -/
theorem c6_amended_query_parameters (o : WatchOptions)
    (params : List (String × Option JsPrim)) (k : String) (v : JsPrim) :
    getParam (buildIteratorQuery o) "watch" = some "true" ∧
    countKey (buildIteratorQuery o) "watch" = 1 ∧
    (∀ rv, o.resourceVersion = some rv →
      getParam (buildIteratorQuery o) "resourceVersion" = some rv ∧
      countKey (buildIteratorQuery o) "resourceVersion" = 1) ∧
    (∀ sel, o.labelSelector = some sel →
      getParam (buildIteratorQuery o) "labelSelector" = some sel ∧
      countKey (buildIteratorQuery o) "labelSelector" = 1) ∧
    (∀ sel, o.fieldSelector = some sel →
      getParam (buildIteratorQuery o) "fieldSelector" = some sel ∧
      countKey (buildIteratorQuery o) "fieldSelector" = 1) ∧
    (effAllowWatchBookmarks o = true →
      getParam (buildIteratorQuery o) "allowWatchBookmarks" = some "true" ∧
      countKey (buildIteratorQuery o) "allowWatchBookmarks" = 1) ∧
    (o.allowWatchBookmarks = some false →
      countKey (buildIteratorQuery o) "allowWatchBookmarks" = 0) ∧
    ("watch" ∉ params.map Prod.fst →
      getParam (buildApiQuery params) "watch" = some "true" ∧
      countKey (buildApiQuery params) "watch" = 1) ∧
    ((params.map Prod.fst).Nodup → (k, some v) ∈ params →
      getParam (buildApiQuery params) k = some (jsToString v) ∧
      countKey (buildApiQuery params) k = 1) := by
  obtain ⟨h1, h2, h3, _, h5, _, h7, _, h9, h10⟩ := buildIteratorQuery_spec o
  refine ⟨h1, h2, h3, h5, h7, h9, h10, buildApiQuery_watch params, ?_⟩
  intro hn hm
  exact apiFold_mem params (setParam [] "watch" "true") k v hn hm

/-- Witness for the amended C6 on concrete options and a concrete
caller map. -/
theorem c6_amended_query_parameters_witness :
    getParam (buildIteratorQuery (WatchOptions.mk (some "12345") (some "app=nginx")
      none none none)) "watch" = some "true" ∧
    getParam (buildIteratorQuery (WatchOptions.mk (some "12345") (some "app=nginx")
      none none none)) "resourceVersion" = some "12345" ∧
    countKey (buildIteratorQuery (WatchOptions.mk (some "12345") (some "app=nginx")
      none none none)) "resourceVersion" = 1 ∧
    getParam (buildApiQuery [("labelSelector", some (JsPrim.str "app=nginx"))])
      "labelSelector" = some "app=nginx" ∧
    countKey (buildApiQuery [("labelSelector", some (JsPrim.str "app=nginx"))])
      "labelSelector" = 1 :=
  ⟨(c6_amended_query_parameters (WatchOptions.mk (some "12345") (some "app=nginx") none none none)
      [("labelSelector", some (JsPrim.str "app=nginx"))] "labelSelector"
      (JsPrim.str "app=nginx")).1,
   ((c6_amended_query_parameters (WatchOptions.mk (some "12345") (some "app=nginx") none none none)
      [("labelSelector", some (JsPrim.str "app=nginx"))] "labelSelector"
      (JsPrim.str "app=nginx")).2.2.1 "12345" rfl).1,
   ((c6_amended_query_parameters (WatchOptions.mk (some "12345") (some "app=nginx") none none none)
      [("labelSelector", some (JsPrim.str "app=nginx"))] "labelSelector"
      (JsPrim.str "app=nginx")).2.2.1 "12345" rfl).2,
   ((c6_amended_query_parameters (WatchOptions.mk (some "12345") (some "app=nginx") none none none)
      [("labelSelector", some (JsPrim.str "app=nginx"))] "labelSelector"
      (JsPrim.str "app=nginx")).2.2.2.2.2.2.2.2 (by decide)
      (List.mem_cons_self _ _)).1,
   ((c6_amended_query_parameters (WatchOptions.mk (some "12345") (some "app=nginx") none none none)
      [("labelSelector", some (JsPrim.str "app=nginx"))] "labelSelector"
      (JsPrim.str "app=nginx")).2.2.2.2.2.2.2.2 (by decide)
      (List.mem_cons_self _ _)).2⟩

/-- C7 counterexample: the claim says that by default the request
carries `allowWatchBookmarks=true` in both variants; the default
`WatchApi.watch` invocation (empty caller map) sends only
`watch=true` and no `allowWatchBookmarks` parameter at all. -/
theorem c7_counterexample_api_has_no_bookmark_default :
    buildApiQuery [] = [("watch", "true")] ∧
    getParam (buildApiQuery []) "allowWatchBookmarks" = none :=
  ⟨rfl, rfl⟩

/-- C7 amended: when the caller leaves the option unspecified, the
client-side timeout defaults to 30000 ms in both variants
(destructuring default in WatchIterator, initial field value in
WatchApi); allowWatchBookmarks defaults to true in the WatchIterator
variant only, whose default request carries
`allowWatchBookmarks=true`; the WatchApi variant adds no
allowWatchBookmarks parameter unless the caller supplies one. -/
theorem c7_amended_defaults (o : WatchOptions) :
    (o.timeoutMs = none → effTimeoutMs o = 30000) ∧
    watchApiInitialTimeoutMs = 30000 ∧
    (o.allowWatchBookmarks = none →
      getParam (buildIteratorQuery o) "allowWatchBookmarks" = some "true" ∧
      countKey (buildIteratorQuery o) "allowWatchBookmarks" = 1) ∧
    getParam (buildApiQuery []) "allowWatchBookmarks" = none := by
  refine ⟨?_, rfl, ?_, rfl⟩
  · intro h
    simp [effTimeoutMs, h]
  · intro h
    have hb : effAllowWatchBookmarks o = true := by
      simp [effAllowWatchBookmarks, h]
    exact (buildIteratorQuery_spec o).2.2.2.2.2.2.2.2.1 hb

/-- Witness for the amended C7 on fully defaulted options. -/
theorem c7_amended_defaults_witness :
    effTimeoutMs (WatchOptions.mk none none none none none) = 30000 ∧
    getParam (buildIteratorQuery (WatchOptions.mk none none none none none))
      "allowWatchBookmarks" = some "true" :=
  ⟨(c7_amended_defaults (WatchOptions.mk none none none none none)).1 rfl,
   ((c7_amended_defaults (WatchOptions.mk none none none none none)).2.2.1 rfl).1⟩

/-- C9 counterexample: the claim says a parsed frame that is not an
object with exactly the two fields `type` and `object` and a
recognized kind is silently dropped; but a frame with the
unrecognized kind WEIRD and an extra third field is yielded as an
event by both variants, with no validation at all. -/
theorem c9_counterexample_mismatch_not_dropped :
    watchApiEvents "\x7b\"type\":\"WEIRD\",\"object\":1,\"extra\":2\x7d" =
      [{ type := some (Json.str "WEIRD"), object := some (Json.num "1") }] ∧
    watchIteratorEvents "\x7b\"type\":\"WEIRD\",\"object\":1,\"extra\":2\x7d" =
      [{ type := some (Json.str "WEIRD"), object := some (Json.num "1") }] :=
  ⟨rfl, rfl⟩

/-- C9 amended: the decoder performs no structural validation.  A line
that parses to any non-null JSON value yields exactly one event whose
members are the `type` and `object` property accesses on the value
(absent members give undefined), regardless of the field set and of
whether the kind is recognized; only a `JSON.parse` failure, or a
parsed `null` (whose property access throws inside the same catch),
drops the frame, and decoding continues with the next frame either
way. -/
theorem c9_amended_no_structural_validation (l : String) :
    (∀ v : Json, JSONparse l = some v → v ≠ Json.null →
      decodeLine l = some { type := v.getField "type", object := v.getField "object" } ∧
      apiEventsOfLines [l] =
        [{ type := v.getField "type", object := v.getField "object" }]) ∧
    (JSONparse l = some Json.null → decodeLine l = none) ∧
    (JSONparse l = none → decodeLine l = none) := by
  refine ⟨?_, decodeLine_of_parse_null l, decodeLine_of_parse_none l⟩
  intro v hp hv
  have hd := decodeLine_of_parse_some l v hp hv
  exact ⟨hd, by simp [apiEventsOfLines, hd]⟩

/-- Witness for the amended C9 at the concrete WEIRD frame. -/
theorem c9_amended_no_structural_validation_witness :
    decodeLine "\x7b\"type\":\"WEIRD\",\"object\":1,\"extra\":2\x7d" =
      some { type := some (Json.str "WEIRD"), object := some (Json.num "1") } ∧
    apiEventsOfLines ["\x7b\"type\":\"WEIRD\",\"object\":1,\"extra\":2\x7d"] =
      [{ type := some (Json.str "WEIRD"), object := some (Json.num "1") }] :=
  (c9_amended_no_structural_validation
    "\x7b\"type\":\"WEIRD\",\"object\":1,\"extra\":2\x7d").1
    (Json.obj [("type", Json.str "WEIRD"), ("object", Json.num "1"),
      ("extra", Json.num "2")])
    rfl (fun h => Json.noConfusion h)

/-- C10: every entry of the caller map of `WatchApi.watch` whose value
is not undefined, including keys outside the recognized watch
options, is forwarded as a query parameter set to the `toString` form
of the value, exactly once; every entry whose value is undefined sets
nothing, so its key (when distinct from the always-set `watch` and
from every other entry) is absent from the query. -/
theorem c10_api_query_forwarding (params : List (String × Option JsPrim))
    (k : String) (v : JsPrim) :
    ((params.map Prod.fst).Nodup → (k, some v) ∈ params →
      getParam (buildApiQuery params) k = some (jsToString v) ∧
      countKey (buildApiQuery params) k = 1) ∧
    ((params.map Prod.fst).Nodup → (k, none) ∈ params → k ≠ "watch" →
      getParam (buildApiQuery params) k = none ∧
      countKey (buildApiQuery params) k = 0) := by
  constructor
  · intro hn hm
    exact apiFold_mem params (setParam [] "watch" "true") k v hn hm
  · intro hn hm hkw
    have hnot : ∀ v' : JsPrim, (k, some v') ∉ params := by
      intro v' hv'
      have heq := List.inj_on_of_nodup_map hn hm hv' rfl
      have : (none : Option JsPrim) = some v' := congrArg Prod.snd heq
      exact Option.noConfusion this
    have h := apiFold_not_mem params (setParam [] "watch" "true") k hnot
    have hwk : ¬ "watch" = k := fun he => hkw he.symm
    constructor
    · rw [show buildApiQuery params = params.foldl
          (fun q p =>
            match p.2 with
            | some v => setParam q p.1 (jsToString v)
            | none => q) (setParam [] "watch" "true") from rfl, h.1]
      simp [setParam, getParam, List.find?_cons, hwk]
    · rw [show buildApiQuery params = params.foldl
          (fun q p =>
            match p.2 with
            | some v => setParam q p.1 (jsToString v)
            | none => q) (setParam [] "watch" "true") from rfl, h.2]
      simp [setParam, countKey, List.filter_cons, hwk]

/-- Witness for C10 on a concrete caller map with one defined
unrecognized entry, one defined Boolean entry and one undefined
entry. -/
theorem c10_api_query_forwarding_witness :
    getParam (buildApiQuery [("sendInitialEvents", some (JsPrim.bool false)),
      ("resourceVersion", none)]) "sendInitialEvents" = some "false" ∧
    countKey (buildApiQuery [("sendInitialEvents", some (JsPrim.bool false)),
      ("resourceVersion", none)]) "sendInitialEvents" = 1 ∧
    getParam (buildApiQuery [("sendInitialEvents", some (JsPrim.bool false)),
      ("resourceVersion", none)]) "resourceVersion" = none ∧
    countKey (buildApiQuery [("sendInitialEvents", some (JsPrim.bool false)),
      ("resourceVersion", none)]) "resourceVersion" = 0 :=
  ⟨((c10_api_query_forwarding [("sendInitialEvents", some (JsPrim.bool false)),
      ("resourceVersion", none)] "sendInitialEvents" (JsPrim.bool false)).1
      (by decide) (List.mem_cons_self _ _)).1,
   ((c10_api_query_forwarding [("sendInitialEvents", some (JsPrim.bool false)),
      ("resourceVersion", none)] "sendInitialEvents" (JsPrim.bool false)).1
      (by decide) (List.mem_cons_self _ _)).2,
   ((c10_api_query_forwarding [("sendInitialEvents", some (JsPrim.bool false)),
      ("resourceVersion", none)] "resourceVersion" (JsPrim.bool false)).2
      (by decide) (List.Mem.tail _ (List.mem_cons_self _ _)) (by decide)).1,
   ((c10_api_query_forwarding [("sendInitialEvents", some (JsPrim.bool false)),
      ("resourceVersion", none)] "resourceVersion" (JsPrim.bool false)).2
      (by decide) (List.Mem.tail _ (List.mem_cons_self _ _)) (by decide)).2⟩
